import Mathlib

/-!
Shallow embedding of the HANDY (DigiNotes AI) client application.

The repository is a browser app that uploads PDF files of handwritten notes,
rasterizes their pages, sends the images to an external content synthesizer,
and renders the returned Document Model into a paginated PDF (or downloads
raw LaTeX markup).  This file embeds:

  * the data model (`types.ts`): `FileStatus`, `OutputFileFormat`,
    `ContentItem`, `PdfContent`, `UploadedFile`;
  * the paginating renderer `generatePdf` of `App.tsx` (src/unnamed/part_000),
    including the SVG aspect-ratio inference for diagram blocks;
  * the UI state transitions `handleFilesSelected`, `removeFile`,
    `handleConvert` per-task updates, and `handleDownload`;
  * the file-name computation of `doc.save` / `downloadTexFile`.

External library behavior that the code calls is abstracted as parameters:
`doc.splitTextToSize` becomes an arbitrary wrapping function, the page width
comes from the jsPDF document, and the success of the browser's SVG image
loading becomes a per-block oracle.  JavaScript string builtins used by the
code (`String.match` with the three literal regexes, `parseFloat`,
`split(/\s+/)`, `String.replace` with a plain-string pattern, which replaces
the first occurrence only) are modelled directly below.
-/

namespace Handy

/-! ## Data model (src/types.ts) -/

/-- Status of an uploaded file, as in `types.ts`. -/
inductive FileStatus where
  | pending
  | processing
  | completed
  | error
deriving DecidableEq, Repr

/-- Requested output format, as in `types.ts`. -/
inductive OutputFileFormat where
  | pdf
  | tex
deriving DecidableEq, Repr

/-- Tag of a content block (`ContentItem.type` in `types.ts`). -/
inductive BlockType where
  | heading1
  | heading2
  | paragraph
  | bullet_list
  | numbered_list
  | diagram
  | equation
deriving DecidableEq, Repr

/-- One typed content block (`ContentItem` in `types.ts`).  `svg` is the
optional diagram markup. -/
structure ContentItem where
  type : BlockType
  text : String
  items : List String
  svg : Option String
deriving DecidableEq, Repr

/-- The Document Model (`PdfContent` in `types.ts`): a title plus an ordered
sequence of content blocks. -/
structure PdfContent where
  title : String
  content : List ContentItem
deriving DecidableEq, Repr

/-- The stored output payload of an uploaded file: in the source this is the
untagged union `string | PdfContent`; `doc` is the object case and `tex` the
string case. -/
inductive Output where
  | doc : PdfContent → Output
  | tex : String → Output
deriving DecidableEq, Repr

/-- An entry of the upload list (`UploadedFile` in `types.ts`).  The original
`File` handle is represented by the name used for downloads; `id` is the
string `` `${file.name}-${file.lastModified}` ``. -/
structure UFile where
  id : String
  name : String
  status : FileStatus
  output : Option Output
deriving DecidableEq, Repr

/-! ## JavaScript string builtins used by App.tsx -/

/-- Whitespace recognized by the model of JavaScript's `\s` (the common
characters; exotic Unicode spaces are not modelled). -/
def isWs (c : Char) : Bool :=
  c = ' ' ∨ c = '\t' ∨ c = '\n' ∨ c = '\r'

/-- Decimal digit test. -/
def isDigit (c : Char) : Bool :=
  '0' ≤ c ∧ c ≤ '9'

/-- Numeric value of a digit string (most significant first). -/
def digitsVal (ds : List Char) : ℕ :=
  ds.foldl (fun a c => a * 10 + (c.toNat - 48)) 0

/-- Syntactic phase of the JavaScript `parseFloat` model: skip leading
whitespace, optional sign, digits with optional fraction and optional
exponent, taking the longest valid prefix.  Returns
(negative sign, integer digits, fraction digits, negative exponent,
exponent digits), or `none` when no numeric prefix exists (`NaN`).
The special values `Infinity` and `-Infinity` are not modelled. -/
def floatParts (s0 : List Char) :
    Option (Bool × List Char × List Char × Bool × List Char) :=
  let s1 := s0.dropWhile isWs
  let sgn : Bool × List Char :=
    match s1 with
    | '-' :: r => (true, r)
    | '+' :: r => (false, r)
    | _ => (false, s1)
  let ip := sgn.2.takeWhile isDigit
  let s2 := sgn.2.dropWhile isDigit
  let fr : List Char × List Char :=
    match s2 with
    | '.' :: r => (r.takeWhile isDigit, r.dropWhile isDigit)
    | _ => ([], s2)
  if ip = [] ∧ fr.1 = [] then none
  else
    let ex : Bool × List Char :=
      match fr.2 with
      | e :: r =>
        if e = 'e' ∨ e = 'E' then
          let es : Bool × List Char :=
            match r with
            | '-' :: rr => (true, rr)
            | '+' :: rr => (false, rr)
            | _ => (false, r)
          let ed := es.2.takeWhile isDigit
          if ed = [] then (false, []) else (es.1, ed)
        else (false, [])
      | [] => (false, [])
    some (sgn.1, ip, fr.1, ex.1, ex.2)

/-- Numeric value of the parsed parts: `sign * (int + frac/10^k) * 10^exp`. -/
def ratOfParts : Bool × List Char × List Char × Bool × List Char → ℚ
  | (neg, ip, fp, eneg, ed) =>
    let sign : ℚ := if neg then -1 else 1
    let mant : ℚ := (digitsVal ip : ℚ) + (digitsVal fp : ℚ) / 10 ^ fp.length
    let ex : ℤ := if eneg then -(digitsVal ed : ℤ) else (digitsVal ed : ℤ)
    sign * mant * (10 : ℚ) ^ ex

/-- Model of JavaScript `parseFloat` on ordinary decimal literals; `none`
stands for `NaN`. -/
def jsParseFloat (s : List Char) : Option ℚ :=
  (floatParts s).map ratOfParts

/-- Model of the first match of the regex `pat("([^"]+)"` (as in
`/width="([^"]+)"/`): find the earliest occurrence of the literal `pat`
followed by a nonempty run of non-quote characters and a closing quote, and
return the captured run. -/
def matchCapture (pat : List Char) : List Char → Option (List Char)
  | [] => none
  | c :: rest =>
    if pat.isPrefixOf (c :: rest) then
      let after := (c :: rest).drop pat.length
      let cap := after.takeWhile (fun ch => ch ≠ '"')
      if cap ≠ [] ∧ after.drop cap.length ≠ [] then some cap
      else matchCapture pat rest
    else matchCapture pat rest

/-- Dropping a prefix cannot lengthen a list. -/
theorem length_dropWhile_le' {α : Type} (p : α → Bool) (l : List α) :
    (l.dropWhile p).length ≤ l.length := by
  induction l with
  | nil => simp [List.dropWhile]
  | cons a l ih =>
    by_cases h : p a
    · simpa [List.dropWhile, h] using Nat.le_succ_of_le ih
    · simp [List.dropWhile, h]

/-- Model of JavaScript `String.split(/\s+/)`: fields separated by maximal
whitespace runs, keeping empty boundary fields (so a leading separator
produces a leading empty field, as in the source's `viewBox` handling). -/
def splitWsGo : List Char → List Char → List (List Char)
  | [], cur => [cur.reverse]
  | c :: rest, cur =>
    if isWs c then cur.reverse :: splitWsGo (rest.dropWhile isWs) []
    else splitWsGo rest (c :: cur)
termination_by l _ => l.length
decreasing_by
  all_goals simp_wf
  all_goals exact Nat.lt_succ_of_le (length_dropWhile_le' _ _)

/-- Split a character list at whitespace runs, JavaScript style. -/
def jsSplitWs (s : List Char) : List (List Char) :=
  splitWsGo s []

/-- Model of JavaScript `String.replace` with a plain-string pattern: only
the first occurrence of `pat` is replaced by `rep`. -/
def replaceFirst (pat rep : List Char) : List Char → List Char
  | [] => []
  | c :: rest =>
    if pat.isPrefixOf (c :: rest) then rep ++ (c :: rest).drop pat.length
    else c :: replaceFirst pat rep rest

/-! ## SVG aspect-ratio inference (generatePdf, diagram case) -/

/-- The literal searched for by `/width="([^"]+)"/`. -/
def widthPat : List Char := "width=\"".data

/-- The literal searched for by `/height="([^"]+)"/`. -/
def heightPat : List Char := "height=\"".data

/-- The literal searched for by `/viewBox="([^"]+)"/`. -/
def viewBoxPat : List Char := "viewBox=\"".data

/-- Aspect ratio from captured `width` and `height` attribute values:
`h / w` when both parse to positive numbers, else the initial value 1. -/
def ratioFromWH (wc hc : List Char) : ℚ :=
  match jsParseFloat wc, jsParseFloat hc with
  | some w, some h => if 0 < w ∧ 0 < h then h / w else 1
  | _, _ => 1

/-- Aspect ratio from a captured `viewBox` attribute value: split on
whitespace, and when there are exactly four parts whose third and fourth
entries parse to positive numbers, take `vbHeight / vbWidth`, else 1. -/
def ratioFromVB (vb : List Char) : ℚ :=
  let parts := jsSplitWs vb
  if parts.length = 4 then
    match jsParseFloat (parts.getD 2 []), jsParseFloat (parts.getD 3 []) with
    | some vw, some vh => if 0 < vw ∧ 0 < vh then vh / vw else 1
    | _, _ => 1
  else 1

/-- The aspect ratio computed by `generatePdf` for a diagram's SVG string:
width/height attributes when both regexes match, else the viewBox, with 1
as the starting default. -/
def svgAspectRatio (svg : String) : ℚ :=
  match matchCapture widthPat svg.data, matchCapture heightPat svg.data with
  | some wc, some hc => ratioFromWH wc hc
  | _, _ =>
    match matchCapture viewBoxPat svg.data with
    | some vb => ratioFromVB vb
    | none => 1

/-! ## The paginating renderer (generatePdf in src/unnamed/part_000) -/

/-- Layout context: the external pieces `generatePdf` calls into.
`split` models `doc.splitTextToSize` (text and maximal width to wrapped
lines), `pageWidth` models `doc.internal.pageSize.getWidth()`, and
`rasterize` tells whether the browser image load of the diagram at a given
block index succeeds (the `img.onload` / `img.onerror` outcome). -/
structure Ctx where
  split : String → ℚ → List String
  pageWidth : ℚ
  rasterize : ℕ → Bool

/-- The constant `pageMargin = 14` of `generatePdf`. -/
def pageMargin : ℚ := 14

/-- `textWidth = pageWidth - pageMargin * 2`. -/
def textWidth (ctx : Ctx) : ℚ := ctx.pageWidth - pageMargin * 2

/-- Vertical cursor: current page number (starting at 1) and `yPos`. -/
structure Cursor where
  page : ℕ
  y : ℚ
deriving DecidableEq, Repr

/-- The check at the top of the `for` loop of `generatePdf`:
`if (yPos > 270) { doc.addPage(); yPos = 20; }`. -/
def precheck (c : Cursor) : Cursor :=
  if c.y > 270 then ⟨c.page + 1, 20⟩ else c

/-- An element placed into the output document: a (possibly wrapped) text
call, an image (with the oversampled canvas dimensions `cw`/`ch` used to
rasterize it), or the red-colored error line substituted when a diagram
fails to rasterize. -/
inductive Placed where
  | text (lines : List String) (x y : ℚ) (page : ℕ) (centered : Bool)
  | image (x y w h cw ch : ℚ) (page : ℕ)
  | errorText (s : String) (x y : ℚ) (page : ℕ)
deriving DecidableEq, Repr

/-- One step of the inner `item.items.forEach` of the `bullet_list` case. -/
def bulletStep (ctx : Ctx) (acc : Cursor × List Placed) (listItem : String) :
    Cursor × List Placed :=
  let s := ctx.split ("â€¢ " ++ listItem) (textWidth ctx - 6)
  let c := if acc.1.y > 280 then Cursor.mk (acc.1.page + 1) 20 else acc.1
  (⟨c.page, c.y + (s.length : ℚ) * 5 + 2⟩,
   acc.2 ++ [Placed.text s (pageMargin + 6) c.y c.page false])

/-- The body of the `switch (item.type)` of `generatePdf`, applied to the
cursor that already went through the top-of-loop check.  `idx` is the index
of the block in `data.content`, used to consult the rasterization oracle. -/
def placeItemBody (ctx : Ctx) (idx : ℕ) (item : ContentItem) (c : Cursor) :
    Cursor × List Placed :=
  match item.type with
  | BlockType.heading1 =>
    (⟨c.page, c.y + 10⟩, [Placed.text [item.text] pageMargin c.y c.page false])
  | BlockType.heading2 =>
    (⟨c.page, c.y + 8⟩, [Placed.text [item.text] pageMargin c.y c.page false])
  | BlockType.paragraph =>
    let s := ctx.split item.text (textWidth ctx)
    (⟨c.page, c.y + (s.length : ℚ) * 5 + 5⟩,
     [Placed.text s pageMargin c.y c.page false])
  | BlockType.equation =>
    let s := ctx.split item.text (textWidth ctx)
    let equationHeight : ℚ := (s.length : ℚ) * 5
    let c1 := if c.y + equationHeight + 6 > 280 then Cursor.mk (c.page + 1) 20 else c
    let yText := c1.y + 3
    (⟨c1.page, yText + equationHeight + 3⟩,
     [Placed.text s (ctx.pageWidth / 2) yText c1.page true])
  | BlockType.bullet_list =>
    let r := item.items.foldl (bulletStep ctx) (c, [])
    (⟨r.1.page, r.1.y + 5⟩, r.2)
  | BlockType.numbered_list => (c, [])
  | BlockType.diagram =>
    match item.svg with
    | none => (c, [])
    | some svgString =>
      if svgString = "" then (c, [])
      else
        let sDesc := ctx.split ("Diagram: " ++ item.text) (textWidth ctx)
        let descriptionHeight : ℚ := (sDesc.length : ℚ) * 4 + 5
        let renderWidth := textWidth ctx
        let svgHeight := renderWidth * svgAspectRatio svgString
        let c1 := if c.y + descriptionHeight + svgHeight > 280 then Cursor.mk (c.page + 1) 20 else c
        let yImg := c1.y + descriptionHeight
        if ctx.rasterize idx then
          (⟨c1.page, yImg + svgHeight + 10⟩,
           [Placed.text sDesc pageMargin c1.y c1.page false,
            Placed.image pageMargin yImg renderWidth svgHeight
              (renderWidth * 2) (svgHeight * 2) c1.page])
        else
          (⟨c1.page, yImg + 10⟩,
           [Placed.text sDesc pageMargin c1.y c1.page false,
            Placed.errorText "[Error rendering diagram]" pageMargin yImg c1.page])

/-- One iteration of the `for (const item of data.content)` loop: the
top-of-loop page check followed by the `switch`. -/
def placeItem (ctx : Ctx) (idx : ℕ) (item : ContentItem) (c : Cursor) :
    Cursor × List Placed :=
  placeItemBody ctx idx item (precheck c)

/-- Run the loop over the remaining content blocks, returning the final
cursor and, per block, the elements it placed. -/
def runItems (ctx : Ctx) : ℕ → List ContentItem → Cursor → Cursor × List (List Placed)
  | _, [], c => (c, [])
  | idx, it :: rest, c =>
    ((runItems ctx (idx + 1) rest (placeItem ctx idx it c).1).1,
     (placeItem ctx idx it c).2 :: (runItems ctx (idx + 1) rest (placeItem ctx idx it c).1).2)

/-- Result of `generatePdf`: final cursor (its `page` is the page count),
the centered title placement, and the per-block placements. -/
structure LayoutResult where
  final : Cursor
  titleOut : Placed
  blocks : List (List Placed)
deriving DecidableEq, Repr

/-- The layout performed by `generatePdf` of src/unnamed/part_000: title
centered at `y = 20`, then `yPos = 40` and the block loop. -/
def generatePdf (ctx : Ctx) (data : PdfContent) : LayoutResult :=
  let r := runItems ctx 0 data.content ⟨1, 40⟩
  ⟨r.1, Placed.text [data.title] (ctx.pageWidth / 2) 20 1 true, r.2⟩

/-! ## Download file names (doc.save and downloadTexFile) -/

/-- The argument of `doc.save`:
`` `${filename.replace('.pdf', '')}_converted.pdf` ``. -/
def pdfSaveName (filename : String) : String :=
  String.mk (replaceFirst ".pdf".data [] filename.data) ++ "_converted.pdf"

/-- The download name of `downloadTexFile`:
`` `${filename.replace('.pdf', '')}.tex` ``. -/
def texSaveName (filename : String) : String :=
  String.mk (replaceFirst ".pdf".data [] filename.data) ++ ".tex"

/-! ## UI state machine (App.tsx) -/

/-- A file handed to `handleFilesSelected` by the file picker or the
drag-and-drop handler: the fields of the browser `File` the code reads. -/
structure RawFile where
  name : String
  lastModified : ℕ
  mime : String
deriving DecidableEq, Repr

/-- The id template `` `${file.name}-${file.lastModified}` ``. -/
def mkId (f : RawFile) : String :=
  f.name ++ "-" ++ toString f.lastModified

/-- The entry created for a selected file: status `'pending'`, output
`null`. -/
def mkUploaded (f : RawFile) : UFile :=
  ⟨mkId f, f.name, FileStatus.pending, none⟩

/-- `handleFilesSelected`: keep only files whose MIME type is
`'application/pdf'`, create pending entries, and append them. -/
def handleFilesSelected (cur : List UFile) (selected : List RawFile) : List UFile :=
  cur ++ (selected.filter (fun f => f.mime == "application/pdf")).map mkUploaded

/-- `removeFile`: drop the entries with the given id. -/
def removeFile (cur : List UFile) (id : String) : List UFile :=
  cur.filter (fun f => f.id != id)

/-- The `setFiles(prev => prev.map(f => f.id === id ? {...f, status:'processing'} : f))`
update a conversion task performs when it starts. -/
def markProcessing (fs : List UFile) (id : String) : List UFile :=
  fs.map (fun f => if f.id == id then { f with status := FileStatus.processing } else f)

/-- The update on successful completion: status `'completed'` and the
synthesized output stored. -/
def markCompleted (fs : List UFile) (id : String) (o : Output) : List UFile :=
  fs.map (fun f =>
    if f.id == id then { f with status := FileStatus.completed, output := some o } else f)

/-- The update in the `catch` branch: status `'error'` (output untouched). -/
def markError (fs : List UFile) (id : String) : List UFile :=
  fs.map (fun f => if f.id == id then { f with status := FileStatus.error } else f)

/-- How a conversion task ends.  `zeroImages` is the
`images.length === 0` throw, `synthesisError` covers a failed network call
and the "AI returned invalid JSON format" throw of
`processHandwrittenNotes`, and `success` carries the payload the
synthesizer would return in each format (`PdfContent` for `'pdf'`, raw
text for `'tex'`). -/
inductive TaskEnd where
  | zeroImages
  | synthesisError
  | success (docPayload : PdfContent) (texPayload : String)
deriving DecidableEq, Repr

/-- The final `setFiles` update of one conversion task, given the format
that was captured when `handleConvert` started: every branch of the
`try`/`catch` ends in exactly one of these updates. -/
def applyOutcome (fs : List UFile) (id : String) (fmt : OutputFileFormat) :
    TaskEnd → List UFile
  | TaskEnd.zeroImages => markError fs id
  | TaskEnd.synthesisError => markError fs id
  | TaskEnd.success d t =>
    markCompleted fs id (if fmt = OutputFileFormat.pdf then Output.doc d else Output.tex t)

/-- The tasks `handleConvert` spawns: one per pending entry, each capturing
the output format current at the time of the call. -/
def spawnTasks (fs : List UFile) (fmt : OutputFileFormat) :
    List (String × OutputFileFormat) :=
  (fs.filter (fun f => f.status == FileStatus.pending)).map (fun f => (f.id, fmt))

/-- The combined effect of every spawned task's initial `markProcessing`
update: entries whose id matches a pending entry become `'processing'`. -/
def startProcessing (fs : List UFile) : List UFile :=
  let pend := fs.filter (fun f => f.status == FileStatus.pending)
  fs.map (fun f =>
    if pend.any (fun p => p.id == f.id) then { f with status := FileStatus.processing } else f)

/-- The React state of `App`: the upload list, the selected output format,
the processing flag, and the in-flight conversion tasks with their captured
format. -/
structure AppState where
  files : List UFile
  outputFormat : OutputFileFormat
  isProcessing : Bool
  tasks : List (String × OutputFileFormat)
deriving DecidableEq, Repr

/-- The initial state of the three `useState` hooks. -/
def initState : AppState :=
  ⟨[], OutputFileFormat.pdf, false, []⟩

/-- State after `handleFilesSelected`. -/
def selectStep (s : AppState) (fs : List RawFile) : AppState :=
  { s with files := handleFilesSelected s.files fs }

/-- State after `removeFile`. -/
def removeStep (s : AppState) (id : String) : AppState :=
  { s with files := removeFile s.files id }

/-- State after clicking a format in `FormatSelector`. -/
def setFormatStep (s : AppState) (fmt : OutputFileFormat) : AppState :=
  { s with outputFormat := fmt }

/-- State right after `handleConvert` starts: `isProcessing` set, all
pending entries marked processing, one task per pending entry. -/
def convertStep (s : AppState) : AppState :=
  ⟨startProcessing s.files, s.outputFormat, true, spawnTasks s.files s.outputFormat⟩

/-- State after one in-flight task finishes with outcome `oc`:
its final `setFiles` update runs, the task leaves the in-flight set, and
`Promise.all` resolves (clearing `isProcessing`) once no task remains. -/
def finishStep (s : AppState) (t : String × OutputFileFormat) (oc : TaskEnd) : AppState :=
  let ts := s.tasks.erase t
  ⟨applyOutcome s.files t.1 t.2 oc, s.outputFormat, !ts.isEmpty, ts⟩

/-- One UI event.  `setFormat` requires a nonempty file list (the selector
is rendered only then); `convert` requires the button to be enabled
(`!isProcessing && files.some(f => f.status === 'pending')`); `finish`
requires the task to be in flight. -/
inductive Step : AppState → AppState → Prop where
  | select (s : AppState) (fs : List RawFile) : Step s (selectStep s fs)
  | remove (s : AppState) (id : String) : Step s (removeStep s id)
  | setFormat (s : AppState) (fmt : OutputFileFormat) (h : s.files ≠ []) :
      Step s (setFormatStep s fmt)
  | convert (s : AppState) (h1 : s.isProcessing = false)
      (h2 : s.files.any (fun f => f.status == FileStatus.pending) = true) :
      Step s (convertStep s)
  | finish (s : AppState) (t : String × OutputFileFormat) (oc : TaskEnd)
      (h : t ∈ s.tasks) : Step s (finishStep s t oc)

/-- Reachable UI states: those obtainable from `initState` by events. -/
def Reachable (s : AppState) : Prop :=
  Relation.ReflTransGen Step initState s

/-- A download triggered by `handleDownload`: either `generatePdf` followed
by `doc.save`, or `downloadTexFile`. -/
inductive DownloadAction where
  | savePdf (filename : String) (d : PdfContent)
  | saveTex (filename : String) (content : String)
deriving DecidableEq, Repr

/-- `handleDownload`: look the file up, return early when it is missing or
has no output, and dispatch on the selected format and the runtime type of
the stored output (`typeof file.output === 'object'` is the `doc` case). -/
def handleDownload (s : AppState) (fileId : String) : Option DownloadAction :=
  match s.files.find? (fun f => f.id == fileId) with
  | none => none
  | some f =>
    match f.output with
    | none => none
    | some o =>
      match s.outputFormat, o with
      | OutputFileFormat.pdf, Output.doc d => some (DownloadAction.savePdf (pdfSaveName f.name) d)
      | OutputFileFormat.tex, Output.tex t => some (DownloadAction.saveTex (texSaveName f.name) t)
      | _, _ => none

/-! ## Helper lemmas -/

/-- The top-of-loop page check is idempotent. -/
theorem precheck_precheck (c : Cursor) : precheck (precheck c) = precheck c := by
  unfold precheck
  by_cases h : c.y > 270
  · simp only [if_pos h]
    norm_num
  · simp only [if_neg h]

/-- The loop processes every block: one placement list per content item. -/
theorem runItems_length (ctx : Ctx) :
    ∀ (items : List ContentItem) (idx : ℕ) (c : Cursor),
      (runItems ctx idx items c).2.length = items.length := by
  intro items
  induction items with
  | nil => intro idx c; rfl
  | cons it rest ih =>
    intro idx c
    simp only [runItems, List.length_cons]
    rw [ih]

/-- The rasterization oracle is consulted only by diagram blocks. -/
theorem placeItem_rasterize_indep (s : String → ℚ → List String) (w : ℚ)
    (r1 r2 : ℕ → Bool) (idx : ℕ) (it : ContentItem) (c : Cursor)
    (h : it.type ≠ BlockType.diagram) :
    placeItem ⟨s, w, r1⟩ idx it c = placeItem ⟨s, w, r2⟩ idx it c := by
  obtain ⟨ty, tx, its, sv⟩ := it
  cases ty <;> first | rfl | exact absurd rfl h

/-! ## C1: page-break policy for paragraphs -/

/-- Wrapping oracle that wraps any text to 60 lines. -/
def ctxC1 : Ctx := ⟨fun _ _ => List.replicate 60 "x", 210, fun _ => true⟩

/-- A document with a single paragraph. -/
def docC1 : PdfContent := ⟨"t", [⟨BlockType.paragraph, "p", [], none⟩]⟩

/-- Claim C1 is false as stated: a paragraph whose wrapped line count times
the line height would cross the bottom margin does NOT force a page break.
Concretely, with a paragraph wrapped to 60 lines starting at the cursor
`y = 40`, the estimated extent `40 + 60 * 5` crosses the bottom margin, yet
the paragraph is placed on page 1 at `y = 40` (not at the top margin of a
fresh page) and the document ends with a single page. -/
theorem paragraph_overflow_cx :
    (40 : ℚ) + ((ctxC1.split "p" (textWidth ctxC1)).length : ℚ) * 5 > 270 ∧
    (generatePdf ctxC1 docC1).blocks =
      [[Placed.text (List.replicate 60 "x") 14 40 1 false]] ∧
    (generatePdf ctxC1 docC1).final.page = 1 := by
  refine ⟨?_, ?_, ?_⟩ <;>
    norm_num [generatePdf, docC1, ctxC1, runItems, placeItem, placeItemBody,
      precheck, pageMargin, textWidth]

/-- Amended C1: before placing a block, `generatePdf` checks only whether
the current cursor has already passed `y = 270` (starting a new page at
`y = 20` exactly in that case); a paragraph's estimated height is never
compared against the bottom margin, and its whole wrapped text is placed in
a single text call at the checked cursor position, so no part of the
paragraph is lost even when it overflows. -/
theorem paragraph_layout_cursor_check (ctx : Ctx) (idx : ℕ) (item : ContentItem)
    (c : Cursor) (hty : item.type = BlockType.paragraph) :
    placeItem ctx idx item c =
      (⟨(precheck c).page,
        (precheck c).y + ((ctx.split item.text (textWidth ctx)).length : ℚ) * 5 + 5⟩,
       [Placed.text (ctx.split item.text (textWidth ctx)) pageMargin
          (precheck c).y (precheck c).page false]) ∧
    (c.y ≤ 270 → precheck c = c) ∧
    (c.y > 270 → precheck c = ⟨c.page + 1, 20⟩) := by
  obtain ⟨ty, tx, its, sv⟩ := item
  have hty' : ty = BlockType.paragraph := hty
  subst hty'
  refine ⟨rfl, fun h => ?_, fun h => ?_⟩
  · simp [precheck, not_lt.mpr h]
  · simp [precheck, h]

/-- Witness for the amended C1 at a concrete context, paragraph and cursor. -/
theorem paragraph_layout_cursor_check_w :
    placeItem ctxC1 0 ⟨BlockType.paragraph, "p", [], none⟩ ⟨1, 40⟩ =
      (⟨(precheck ⟨1, 40⟩).page,
        (precheck ⟨1, 40⟩).y +
          ((ctxC1.split "p" (textWidth ctxC1)).length : ℚ) * 5 + 5⟩,
       [Placed.text (ctxC1.split "p" (textWidth ctxC1)) pageMargin
          (precheck ⟨1, 40⟩).y (precheck ⟨1, 40⟩).page false]) ∧
    ((40 : ℚ) ≤ 270 → precheck ⟨1, 40⟩ = ⟨1, 40⟩) ∧
    ((40 : ℚ) > 270 → precheck ⟨1, 40⟩ = ⟨1 + 1, 20⟩) :=
  paragraph_layout_cursor_check ctxC1 0 ⟨BlockType.paragraph, "p", [], none⟩ ⟨1, 40⟩ rfl

/-! ## C2: determinism of the layout -/

/-- Wrapping oracle that keeps any text on one line. -/
def splitOne : String → ℚ → List String := fun s _ => [s]

/-- Test context whose diagram rasterization always succeeds. -/
def ctxTrue : Ctx := ⟨splitOne, 210, fun _ => true⟩

/-- Test context whose diagram rasterization always fails. -/
def ctxFalse : Ctx := ⟨splitOne, 210, fun _ => false⟩

/-- C2: for documents containing only heading1/heading2/paragraph/
bullet_list blocks, the layout (page count, block placement order, and all
placed elements) is a function of the wrapping oracle, the page width and
the Document Model alone: two runs agree even when every other part of the
environment (the rasterization outcomes) differs. -/
theorem render_deterministic (ctx1 ctx2 : Ctx) (doc : PdfContent)
    (hs : ctx1.split = ctx2.split) (hw : ctx1.pageWidth = ctx2.pageWidth)
    (hb : ∀ it ∈ doc.content,
      it.type = BlockType.heading1 ∨ it.type = BlockType.heading2 ∨
      it.type = BlockType.paragraph ∨ it.type = BlockType.bullet_list) :
    generatePdf ctx1 doc = generatePdf ctx2 doc := by
  obtain ⟨s1, w1, r1⟩ := ctx1
  obtain ⟨s2, w2, r2⟩ := ctx2
  have hs' : s1 = s2 := hs
  have hw' : w1 = w2 := hw
  subst hs'
  subst hw'
  have key : ∀ (items : List ContentItem) (idx : ℕ) (c : Cursor),
      (∀ it ∈ items,
        it.type = BlockType.heading1 ∨ it.type = BlockType.heading2 ∨
        it.type = BlockType.paragraph ∨ it.type = BlockType.bullet_list) →
      runItems ⟨s1, w1, r1⟩ idx items c = runItems ⟨s1, w1, r2⟩ idx items c := by
    intro items
    induction items with
    | nil => intro idx c _; rfl
    | cons it rest ih =>
      intro idx c hall
      have h1 : it.type ≠ BlockType.diagram := by
        rcases hall it (List.mem_cons_self _ _) with h | h | h | h <;> simp [h]
      have hrest := fun x hx => hall x (List.mem_cons_of_mem _ hx)
      simp only [runItems, placeItem_rasterize_indep s1 w1 r1 r2 idx it c h1,
        ih (idx + 1) ((placeItem ⟨s1, w1, r2⟩ idx it c).1) hrest]
  simp only [generatePdf, key doc.content 0 ⟨1, 40⟩ hb]

/-- The document of the spec's idempotence example, restricted to the four
standard block kinds. -/
def docW2 : PdfContent :=
  ⟨"Notes", [⟨BlockType.heading1, "Intro", [], none⟩,
             ⟨BlockType.paragraph, "Body", [], none⟩,
             ⟨BlockType.bullet_list, "", ["a", "b"], none⟩,
             ⟨BlockType.heading2, "Sub", [], none⟩]⟩

/-- Witness for C2: two runs over contexts that differ in everything except
the wrapping oracle and the page width produce identical layouts. -/
theorem render_deterministic_w :
    generatePdf ctxTrue docW2 = generatePdf ctxFalse docW2 :=
  render_deterministic ctxTrue ctxFalse docW2 rfl rfl (by decide)

/-! ## C8: equation blocks -/

/-- C8: an equation is wrapped exactly like a paragraph with the same text
(the same `splitTextToSize` call at the full text width), placed centered
at half the page width, surrounded by 3 units of padding on each side, and
its full height including the padding is checked against 280 before
placement, with a fresh page (text at `y = 23`) when it does not fit. -/
theorem equation_layout (ctx : Ctx) (idx : ℕ) (item : ContentItem) (c : Cursor)
    (hty : item.type = BlockType.equation) :
    ∃ pg yText,
      (placeItem ctx idx item c).2 =
        [Placed.text (ctx.split item.text (textWidth ctx)) (ctx.pageWidth / 2) yText pg true] ∧
      (placeItem ctx idx item c).1 =
        ⟨pg, yText + ((ctx.split item.text (textWidth ctx)).length : ℚ) * 5 + 3⟩ ∧
      (placeItem ctx idx { item with type := BlockType.paragraph } c).2 =
        [Placed.text (ctx.split item.text (textWidth ctx)) pageMargin
          (precheck c).y (precheck c).page false] ∧
      ((precheck c).y + ((ctx.split item.text (textWidth ctx)).length : ℚ) * 5 + 6 ≤ 280 →
        pg = (precheck c).page ∧ yText = (precheck c).y + 3) ∧
      ((precheck c).y + ((ctx.split item.text (textWidth ctx)).length : ℚ) * 5 + 6 > 280 →
        pg = (precheck c).page + 1 ∧ yText = 23) := by
  obtain ⟨ty, tx, its, sv⟩ := item
  have hty' : ty = BlockType.equation := hty
  subst hty'
  by_cases hfit :
      (precheck c).y + ((ctx.split tx (textWidth ctx)).length : ℚ) * 5 + 6 > 280
  · refine ⟨(precheck c).page + 1, (20 : ℚ) + 3, ?_, ?_, rfl,
      fun h => absurd hfit (not_lt.mpr h), fun _ => ⟨rfl, by norm_num⟩⟩
    · simp only [placeItem, placeItemBody, if_pos hfit]
    · simp only [placeItem, placeItemBody, if_pos hfit]
  · refine ⟨(precheck c).page, (precheck c).y + 3, ?_, ?_, rfl,
      fun _ => ⟨rfl, rfl⟩, fun h => absurd h hfit⟩
    · simp only [placeItem, placeItemBody, if_neg hfit]
    · simp only [placeItem, placeItemBody, if_neg hfit]

/-- Witness for C8 at a one-line equation placed at cursor `(1, 40)`. -/
theorem equation_layout_w :
    ∃ pg yText,
      (placeItem ctxTrue 0 ⟨BlockType.equation, "E=mc2", [], none⟩ ⟨1, 40⟩).2 =
        [Placed.text (ctxTrue.split "E=mc2" (textWidth ctxTrue))
          (ctxTrue.pageWidth / 2) yText pg true] ∧
      (placeItem ctxTrue 0 ⟨BlockType.equation, "E=mc2", [], none⟩ ⟨1, 40⟩).1 =
        ⟨pg, yText + ((ctxTrue.split "E=mc2" (textWidth ctxTrue)).length : ℚ) * 5 + 3⟩ ∧
      (placeItem ctxTrue 0
          { (⟨BlockType.equation, "E=mc2", [], none⟩ : ContentItem) with
            type := BlockType.paragraph } ⟨1, 40⟩).2 =
        [Placed.text (ctxTrue.split "E=mc2" (textWidth ctxTrue)) pageMargin
          (precheck ⟨1, 40⟩).y (precheck ⟨1, 40⟩).page false] ∧
      ((precheck ⟨1, 40⟩).y +
          ((ctxTrue.split "E=mc2" (textWidth ctxTrue)).length : ℚ) * 5 + 6 ≤ 280 →
        pg = (precheck ⟨1, 40⟩).page ∧ yText = (precheck ⟨1, 40⟩).y + 3) ∧
      ((precheck ⟨1, 40⟩).y +
          ((ctxTrue.split "E=mc2" (textWidth ctxTrue)).length : ℚ) * 5 + 6 > 280 →
        pg = (precheck ⟨1, 40⟩).page + 1 ∧ yText = 23) :=
  equation_layout ctxTrue 0 ⟨BlockType.equation, "E=mc2", [], none⟩ ⟨1, 40⟩ rfl

/-! ## C10: diagram blocks without an svg payload -/

/-- A diagram block with no svg markup. -/
def itemD0 : ContentItem := ⟨BlockType.diagram, "d", [], none⟩

/-- C10: a diagram block whose `svg` field is absent places nothing (no
caption, no image, no error marker), never increases the vertical cursor,
and leaves the layout of any following block exactly as it would have been
without the diagram block. -/
theorem svgless_diagram_skipped (ctx : Ctx) (idx : ℕ) (item : ContentItem)
    (c : Cursor) (hty : item.type = BlockType.diagram) (hs : item.svg = none) :
    placeItem ctx idx item c = (precheck c, []) ∧
    (placeItem ctx idx item c).1.y ≤ c.y ∧
    ∀ (j : ℕ) (it2 : ContentItem),
      placeItem ctx j it2 (placeItem ctx idx item c).1 = placeItem ctx j it2 c := by
  obtain ⟨ty, tx, its, sv⟩ := item
  have hty' : ty = BlockType.diagram := hty
  have hs' : sv = none := hs
  subst hty'
  subst hs'
  have h1 : placeItem ctx idx ⟨BlockType.diagram, tx, its, none⟩ c = (precheck c, []) := rfl
  refine ⟨h1, ?_, ?_⟩
  · rw [h1]
    show (precheck c).y ≤ c.y
    unfold precheck
    by_cases h : c.y > 270
    · simp only [if_pos h]
      exact le_of_lt (lt_trans (by norm_num) h)
    · simp only [if_neg h]
      exact le_refl _
  · intro j it2
    rw [h1]
    show placeItemBody ctx j it2 (precheck (precheck c)) = placeItemBody ctx j it2 (precheck c)
    rw [precheck_precheck]

/-- Witness for C10 at a concrete svg-less diagram block. -/
theorem svgless_diagram_skipped_w :
    placeItem ctxTrue 0 itemD0 ⟨1, 40⟩ = (precheck ⟨1, 40⟩, []) ∧
    (placeItem ctxTrue 0 itemD0 ⟨1, 40⟩).1.y ≤ (40 : ℚ) ∧
    ∀ (j : ℕ) (it2 : ContentItem),
      placeItem ctxTrue j it2 (placeItem ctxTrue 0 itemD0 ⟨1, 40⟩).1 =
        placeItem ctxTrue j it2 ⟨1, 40⟩ :=
  svgless_diagram_skipped ctxTrue 0 itemD0 ⟨1, 40⟩ rfl rfl

/-! ## C5: failed diagram rasterization -/

/-- C5: when a diagram's rasterization fails, exactly one red error line
(after the already-placed caption) is substituted, the cursor resumes 10
units below it, and the loop still produces a placement entry for every
block of any document, so the remainder always renders. -/
theorem diagram_failure_one_error_line (ctx : Ctx) (idx : ℕ) (item : ContentItem)
    (c : Cursor) (s : String) (hty : item.type = BlockType.diagram)
    (hs : item.svg = some s) (hne : s ≠ "") (hr : ctx.rasterize idx = false) :
    (∃ pg yCap yErr,
      (placeItem ctx idx item c).2 =
        [Placed.text (ctx.split ("Diagram: " ++ item.text) (textWidth ctx))
          pageMargin yCap pg false,
         Placed.errorText "[Error rendering diagram]" pageMargin yErr pg] ∧
      (placeItem ctx idx item c).1 = ⟨pg, yErr + 10⟩) ∧
    ∀ data : PdfContent, (generatePdf ctx data).blocks.length = data.content.length := by
  obtain ⟨ty, tx, its, sv⟩ := item
  have hty' : ty = BlockType.diagram := hty
  have hs' : sv = some s := hs
  subst hty'
  subst hs'
  constructor
  · simp only [placeItem, placeItemBody, if_neg hne, hr, Bool.false_eq_true, if_false]
    exact ⟨_, _, _, rfl, rfl⟩
  · intro data
    simp only [generatePdf]
    rw [runItems_length]

/-- A diagram block carrying svg markup. -/
def itemD1 : ContentItem := ⟨BlockType.diagram, "d", [], some "<svg></svg>"⟩

/-- Witness for C5 with an always-failing rasterizer. -/
theorem diagram_failure_one_error_line_w :
    (∃ pg yCap yErr,
      (placeItem ctxFalse 0 itemD1 ⟨1, 40⟩).2 =
        [Placed.text (ctxFalse.split ("Diagram: " ++ itemD1.text) (textWidth ctxFalse))
          pageMargin yCap pg false,
         Placed.errorText "[Error rendering diagram]" pageMargin yErr pg] ∧
      (placeItem ctxFalse 0 itemD1 ⟨1, 40⟩).1 = ⟨pg, yErr + 10⟩) ∧
    ∀ data : PdfContent,
      (generatePdf ctxFalse data).blocks.length = data.content.length :=
  diagram_failure_one_error_line ctxFalse 0 itemD1 ⟨1, 40⟩ "<svg></svg>" rfl rfl
    (by decide) rfl

/-! ## C4: diagram aspect ratio and sizing -/

/-- When both the width and the height attribute regexes match, the aspect
ratio comes from their captured values. -/
theorem svgAspectRatio_wh (s : String) (wc hc : List Char)
    (h1 : matchCapture widthPat s.data = some wc)
    (h2 : matchCapture heightPat s.data = some hc) :
    svgAspectRatio s = ratioFromWH wc hc := by
  unfold svgAspectRatio
  rw [h1, h2]

/-- When the width or the height regex fails but the viewBox regex matches,
the aspect ratio comes from the viewBox. -/
theorem svgAspectRatio_vb (s : String) (vb : List Char)
    (hwh : matchCapture widthPat s.data = none ∨ matchCapture heightPat s.data = none)
    (hvb : matchCapture viewBoxPat s.data = some vb) :
    svgAspectRatio s = ratioFromVB vb := by
  unfold svgAspectRatio
  rcases hwh with h | h
  · rw [h, hvb]
  · cases hwm : matchCapture widthPat s.data with
    | none => rw [hvb]
    | some wc => rw [h, hvb]

/-- When neither source matches, the aspect ratio stays at its initial
value 1. -/
theorem svgAspectRatio_default (s : String)
    (hwh : matchCapture widthPat s.data = none ∨ matchCapture heightPat s.data = none)
    (hvb : matchCapture viewBoxPat s.data = none) :
    svgAspectRatio s = 1 := by
  unfold svgAspectRatio
  rcases hwh with h | h
  · rw [h, hvb]
  · cases hwm : matchCapture widthPat s.data with
    | none => rw [hvb]
    | some wc => rw [h, hvb]

/-- Captured width/height values that parse to positive numbers give the
ratio `h / w`. -/
theorem ratioFromWH_pos (wc hc : List Char) (wq hq : ℚ)
    (h3 : jsParseFloat wc = some wq) (h4 : jsParseFloat hc = some hq)
    (hw : 0 < wq) (hh : 0 < hq) : ratioFromWH wc hc = hq / wq := by
  unfold ratioFromWH
  rw [h3, h4]
  exact if_pos ⟨hw, hh⟩

/-- A four-part viewBox whose third and fourth entries parse to positive
numbers gives the ratio `vbHeight / vbWidth`. -/
theorem ratioFromVB_pos (vb : List Char) (vw vh : ℚ)
    (h4l : (jsSplitWs vb).length = 4)
    (h5 : jsParseFloat ((jsSplitWs vb).getD 2 []) = some vw)
    (h6 : jsParseFloat ((jsSplitWs vb).getD 3 []) = some vh)
    (hvw : 0 < vw) (hvh : 0 < vh) : ratioFromVB vb = vh / vw := by
  unfold ratioFromVB
  rw [if_pos h4l, h5, h6]
  exact if_pos ⟨hvw, hvh⟩

/-- C4: a diagram with svg markup is rendered as a caption followed by an
image at the full text width whose height is the text width times the
inferred aspect ratio, rasterized on a canvas oversampled at twice the
placed size; the ratio is `h / w` from the declared width/height attribute
values when both regexes match and parse positively, else
`vbHeight / vbWidth` from a four-part viewBox, else 1 when neither source
matches. -/
theorem diagram_aspect_sizing (ctx : Ctx) (idx : ℕ) (item : ContentItem)
    (c : Cursor) (s : String) (hty : item.type = BlockType.diagram)
    (hs : item.svg = some s) (hne : s ≠ "") (hr : ctx.rasterize idx = true) :
    (∃ pg yCap,
      (placeItem ctx idx item c).2 =
        [Placed.text (ctx.split ("Diagram: " ++ item.text) (textWidth ctx))
          pageMargin yCap pg false,
         Placed.image pageMargin
           (yCap + (((ctx.split ("Diagram: " ++ item.text) (textWidth ctx)).length : ℚ) * 4 + 5))
           (textWidth ctx) (textWidth ctx * svgAspectRatio s)
           (textWidth ctx * 2) (textWidth ctx * svgAspectRatio s * 2) pg]) ∧
    (∀ (wc hc : List Char) (wq hq : ℚ),
      matchCapture widthPat s.data = some wc →
      matchCapture heightPat s.data = some hc →
      jsParseFloat wc = some wq → jsParseFloat hc = some hq →
      0 < wq → 0 < hq → svgAspectRatio s = hq / wq) ∧
    (∀ (vb : List Char) (vw vh : ℚ),
      (matchCapture widthPat s.data = none ∨ matchCapture heightPat s.data = none) →
      matchCapture viewBoxPat s.data = some vb →
      (jsSplitWs vb).length = 4 →
      jsParseFloat ((jsSplitWs vb).getD 2 []) = some vw →
      jsParseFloat ((jsSplitWs vb).getD 3 []) = some vh →
      0 < vw → 0 < vh → svgAspectRatio s = vh / vw) ∧
    ((matchCapture widthPat s.data = none ∨ matchCapture heightPat s.data = none) →
      matchCapture viewBoxPat s.data = none → svgAspectRatio s = 1) := by
  obtain ⟨ty, tx, its, sv⟩ := item
  have hty' : ty = BlockType.diagram := hty
  have hs' : sv = some s := hs
  subst hty'
  subst hs'
  refine ⟨?_, ?_, ?_, ?_⟩
  · simp only [placeItem, placeItemBody, if_neg hne, hr, if_true]
    exact ⟨_, _, rfl⟩
  · intro wc hc wq hq h1 h2 h3 h4 hw hh
    rw [svgAspectRatio_wh s wc hc h1 h2]
    exact ratioFromWH_pos wc hc wq hq h3 h4 hw hh
  · intro vb vw vh hwh hvb h4l h5 h6 hvw hvh
    rw [svgAspectRatio_vb s vb hwh hvb]
    exact ratioFromVB_pos vb vw vh h4l h5 h6 hvw hvh
  · intro hwh hvb
    exact svgAspectRatio_default s hwh hvb

/-- The svg string of the C4 witness: declared width 100 and height 50. -/
def svgWH : String := "<svg width=\"100\" height=\"50\"></svg>"

/-- A diagram block carrying `svgWH`. -/
def itemD2 : ContentItem := ⟨BlockType.diagram, "d", [], some svgWH⟩

/-- Witness for C4: the concrete svg with width 100 and height 50 gets
aspect ratio 50/100, and the placed image has the claimed dimensions. -/
theorem diagram_aspect_sizing_w :
    svgAspectRatio svgWH = 50 / 100 ∧
    (∃ pg yCap,
      (placeItem ctxTrue 0 itemD2 ⟨1, 40⟩).2 =
        [Placed.text (ctxTrue.split ("Diagram: " ++ itemD2.text) (textWidth ctxTrue))
          pageMargin yCap pg false,
         Placed.image pageMargin
           (yCap + (((ctxTrue.split ("Diagram: " ++ itemD2.text) (textWidth ctxTrue)).length : ℚ) * 4 + 5))
           (textWidth ctxTrue) (textWidth ctxTrue * svgAspectRatio svgWH)
           (textWidth ctxTrue * 2) (textWidth ctxTrue * svgAspectRatio svgWH * 2) pg]) := by
  have main := diagram_aspect_sizing ctxTrue 0 itemD2 ⟨1, 40⟩ svgWH rfl rfl (by decide) rfl
  have hpw : floatParts ['1', '0', '0'] = some (false, ['1', '0', '0'], [], false, []) := by
    decide
  have hph : floatParts ['5', '0'] = some (false, ['5', '0'], [], false, []) := by decide
  have d1 : digitsVal ['1', '0', '0'] = 100 := by decide
  have d2 : digitsVal ['5', '0'] = 50 := by decide
  have d0 : digitsVal ([] : List Char) = 0 := by decide
  have hjw : jsParseFloat ['1', '0', '0'] = some 100 := by
    simp [jsParseFloat, hpw, ratOfParts, d1, d0]
  have hjh : jsParseFloat ['5', '0'] = some 50 := by
    simp [jsParseFloat, hph, ratOfParts, d2, d0]
  refine ⟨?_, main.1⟩
  exact main.2.1 ['1', '0', '0'] ['5', '0'] 100 50 (by decide) (by decide) hjw hjh
    (by norm_num) (by norm_num)

/-! ## C6: per-file errors are isolated -/

/-- C6: when a conversion task ends in a zero-image or synthesis error, the
final update sets the status of the entry at the task's id to `'error'`
(its output untouched) and leaves every entry with a different id exactly
as it was; moreover a conversion task is only ever spawned for a pending
entry with the format current at spawn time, so an errored file is never
retried automatically. -/
theorem per_file_error_isolation (fs : List UFile) (id : String)
    (fmt : OutputFileFormat) (oc : TaskEnd)
    (h : oc = TaskEnd.zeroImages ∨ oc = TaskEnd.synthesisError) (i : ℕ) :
    (∀ f, fs[i]? = some f →
      (f.id = id → (applyOutcome fs id fmt oc)[i]? =
        some { f with status := FileStatus.error }) ∧
      (f.id ≠ id → (applyOutcome fs id fmt oc)[i]? = some f)) ∧
    (∀ (id2 : String) (fmt2 : OutputFileFormat),
      (id2, fmt2) ∈ spawnTasks fs fmt →
      fmt2 = fmt ∧ ∃ g ∈ fs, g.id = id2 ∧ g.status = FileStatus.pending) := by
  constructor
  · intro f hf
    have happly : applyOutcome fs id fmt oc = markError fs id := by
      rcases h with h | h <;> rw [h] <;> rfl
    rw [happly]
    constructor
    · intro hid
      unfold markError
      rw [List.getElem?_map, hf]
      simp [beq_iff_eq, hid]
    · intro hid
      unfold markError
      rw [List.getElem?_map, hf]
      simp [beq_iff_eq, hid]
  · intro id2 fmt2 hmem
    unfold spawnTasks at hmem
    rw [List.mem_map] at hmem
    obtain ⟨g, hg, heq⟩ := hmem
    rw [List.mem_filter] at hg
    obtain ⟨hid, hfmt⟩ := Prod.mk.injEq .. ▸ heq
    refine ⟨hfmt.symm, g, hg.1, hid, ?_⟩
    exact beq_iff_eq.mp hg.2

/-- Two pending uploads with distinct ids. -/
def fsW : List UFile :=
  [⟨"a", "a.pdf", FileStatus.pending, none⟩, ⟨"b", "b.pdf", FileStatus.pending, none⟩]

/-- Witness for C6: failing the task of the first file sets exactly the
first entry to `'error'` and leaves the second entry untouched. -/
theorem per_file_error_isolation_w :
    (applyOutcome fsW "a" OutputFileFormat.pdf TaskEnd.zeroImages)[0]? =
      some ⟨"a", "a.pdf", FileStatus.error, none⟩ ∧
    (applyOutcome fsW "a" OutputFileFormat.pdf TaskEnd.zeroImages)[1]? =
      some ⟨"b", "b.pdf", FileStatus.pending, none⟩ := by
  have h0 := (per_file_error_isolation fsW "a" OutputFileFormat.pdf TaskEnd.zeroImages
    (Or.inl rfl) 0).1 ⟨"a", "a.pdf", FileStatus.pending, none⟩ (by decide)
  have h1 := (per_file_error_isolation fsW "a" OutputFileFormat.pdf TaskEnd.zeroImages
    (Or.inl rfl) 1).1 ⟨"b", "b.pdf", FileStatus.pending, none⟩ (by decide)
  exact ⟨h0.1 rfl, h1.2 (by decide)⟩

/-! ## C7: selection keeps exactly the PDF files -/

/-- C7: `handleFilesSelected` appends to the current list exactly the
selected files whose MIME type is `'application/pdf'`, in selection order,
each created pending with null output; nothing else is added. -/
theorem select_filters_pdf (cur : List UFile) (selected : List RawFile) :
    handleFilesSelected cur selected =
      cur ++ (selected.filter (fun f => f.mime == "application/pdf")).map mkUploaded ∧
    (handleFilesSelected cur selected).length =
      cur.length + (selected.filter (fun f => f.mime == "application/pdf")).length ∧
    ∀ u ∈ (selected.filter (fun f => f.mime == "application/pdf")).map mkUploaded,
      u.status = FileStatus.pending ∧ u.output = none := by
  refine ⟨rfl, ?_, ?_⟩
  · simp [handleFilesSelected]
  · intro u hu
    rw [List.mem_map] at hu
    obtain ⟨g, hg, rfl⟩ := hu
    exact ⟨rfl, rfl⟩

/-- A PDF selection. -/
def rfA : RawFile := ⟨"a.pdf", 1, "application/pdf"⟩

/-- A non-PDF selection. -/
def rfB : RawFile := ⟨"b.png", 2, "image/png"⟩

/-- Witness for C7: of a mixed selection only the PDF file enters the list,
as a pending entry with null output. -/
theorem select_filters_pdf_w :
    handleFilesSelected [] [rfA, rfB] =
      [⟨"a.pdf-1", "a.pdf", FileStatus.pending, none⟩] := by
  have h := (select_filters_pdf [] [rfA, rfB]).1
  rw [h]
  decide

/-! ## C3: output payload type versus selected format -/

/-- Claim C3 is false as stated: a mismatch between a completed file's
stored output type and the currently requested output format IS a reachable
UI state.  Concretely: select one PDF, convert it in PDF mode (storing a
Document Model), then click the still-enabled LaTeX toggle.  The resulting
state is reachable, its format is `'tex'`, and its completed file holds a
Document Model object. -/
theorem format_mismatch_reachable_cx :
    ∃ s : AppState, Reachable s ∧ s.outputFormat = OutputFileFormat.tex ∧
      ∃ f ∈ s.files, f.status = FileStatus.completed ∧
        ∃ d, f.output = some (Output.doc d) := by
  refine ⟨setFormatStep
      (finishStep (convertStep (selectStep initState [rfA]))
        ("a.pdf-1", OutputFileFormat.pdf) (TaskEnd.success ⟨"T", []⟩ "x"))
      OutputFileFormat.tex, ?_, rfl, ?_⟩
  · exact Relation.ReflTransGen.tail
      (Relation.ReflTransGen.tail
        (Relation.ReflTransGen.tail
          (Relation.ReflTransGen.tail Relation.ReflTransGen.refl
            (Step.select initState [rfA]))
          (Step.convert _ rfl (by decide)))
        (Step.finish _ ("a.pdf-1", OutputFileFormat.pdf)
          (TaskEnd.success ⟨"T", []⟩ "x") (by decide)))
      (Step.setFormat _ OutputFileFormat.tex (by decide))
  · exact ⟨⟨"a.pdf-1", "a.pdf", FileStatus.completed, some (Output.doc ⟨"T", []⟩)⟩,
      by decide, rfl, ⟨"T", []⟩, rfl⟩

/-- Amended C3: when a conversion task completes successfully, the stored
output payload's type matches the format captured when the conversion was
started (a Document Model for `'pdf'`, a string for `'tex'`); the selected
format may change afterwards, but `handleDownload` triggers a PDF save only
when the current format is `'pdf'` and the stored output is a Document
Model, and a LaTeX save only when the current format is `'tex'` and the
stored output is a string, so a mismatch never produces a wrongly-typed
download. -/
theorem output_matches_captured_format :
    (∀ (fs : List UFile) (id : String) (fmt : OutputFileFormat) (d : PdfContent)
       (t : String) (f : UFile),
      f ∈ applyOutcome fs id fmt (TaskEnd.success d t) → f.id = id →
      f.status = FileStatus.completed ∧
      f.output = some (if fmt = OutputFileFormat.pdf then Output.doc d else Output.tex t)) ∧
    (∀ (s : AppState) (fid fn : String) (d : PdfContent),
      handleDownload s fid = some (DownloadAction.savePdf fn d) →
      s.outputFormat = OutputFileFormat.pdf ∧
      ∃ f, s.files.find? (fun g => g.id == fid) = some f ∧
        f.output = some (Output.doc d)) ∧
    (∀ (s : AppState) (fid fn t : String),
      handleDownload s fid = some (DownloadAction.saveTex fn t) →
      s.outputFormat = OutputFileFormat.tex ∧
      ∃ f, s.files.find? (fun g => g.id == fid) = some f ∧
        f.output = some (Output.tex t)) := by
  refine ⟨?_, ?_, ?_⟩
  · intro fs id fmt d t f hmem hid
    have : applyOutcome fs id fmt (TaskEnd.success d t) =
        markCompleted fs id
          (if fmt = OutputFileFormat.pdf then Output.doc d else Output.tex t) := rfl
    rw [this] at hmem
    unfold markCompleted at hmem
    rw [List.mem_map] at hmem
    obtain ⟨g, hg, hfe⟩ := hmem
    by_cases hgid : g.id = id
    · have hf : f =
          ⟨g.id, g.name, FileStatus.completed,
           some (if fmt = OutputFileFormat.pdf then Output.doc d else Output.tex t)⟩ := by
        rw [← hfe]
        simp [hgid]
      rw [hf]
      exact ⟨rfl, rfl⟩
    · exfalso
      have hf : f = g := by
        rw [← hfe]
        simp [hgid]
      exact hgid (by rw [← hf]; exact hid)
  · intro s fid fn d h
    cases hfind : s.files.find? (fun g => g.id == fid) with
    | none => simp [handleDownload, hfind] at h
    | some f =>
      cases hout : f.output with
      | none => simp [handleDownload, hfind, hout] at h
      | some o =>
        cases hfmt : s.outputFormat with
        | pdf =>
          cases o with
          | doc dd =>
            simp only [handleDownload, hfind, hout, hfmt, Option.some.injEq,
              DownloadAction.savePdf.injEq] at h
            exact ⟨rfl, f, rfl, by rw [hout, h.2]⟩
          | tex tt => simp [handleDownload, hfind, hout, hfmt] at h
        | tex =>
          cases o with
          | doc dd => simp [handleDownload, hfind, hout, hfmt] at h
          | tex tt => simp [handleDownload, hfind, hout, hfmt] at h
  · intro s fid fn t h
    cases hfind : s.files.find? (fun g => g.id == fid) with
    | none => simp [handleDownload, hfind] at h
    | some f =>
      cases hout : f.output with
      | none => simp [handleDownload, hfind, hout] at h
      | some o =>
        cases hfmt : s.outputFormat with
        | pdf =>
          cases o with
          | doc dd => simp [handleDownload, hfind, hout, hfmt] at h
          | tex tt => simp [handleDownload, hfind, hout, hfmt] at h
        | tex =>
          cases o with
          | doc dd => simp [handleDownload, hfind, hout, hfmt] at h
          | tex tt =>
            simp only [handleDownload, hfind, hout, hfmt, Option.some.injEq,
              DownloadAction.saveTex.injEq] at h
            exact ⟨rfl, f, rfl, by rw [hout, h.2]⟩

/-- A state holding one completed file with a Document Model output, in PDF
mode with no conversion in flight. -/
def sW3 : AppState :=
  ⟨[⟨"a", "a.pdf", FileStatus.completed, some (Output.doc ⟨"T", []⟩)⟩],
   OutputFileFormat.pdf, false, []⟩

/-- Witness for the amended C3: a successful pdf-mode completion stores a
Document Model, and a concrete PDF download implies the matching state. -/
theorem output_matches_captured_format_w :
    ((⟨"a", "a.pdf", FileStatus.completed, some (Output.doc ⟨"T", []⟩)⟩ : UFile).status =
        FileStatus.completed ∧
      (⟨"a", "a.pdf", FileStatus.completed, some (Output.doc ⟨"T", []⟩)⟩ : UFile).output =
        some (if OutputFileFormat.pdf = OutputFileFormat.pdf
          then Output.doc ⟨"T", []⟩ else Output.tex "x")) ∧
    (sW3.outputFormat = OutputFileFormat.pdf ∧
      ∃ f, sW3.files.find? (fun g => g.id == "a") = some f ∧
        f.output = some (Output.doc ⟨"T", []⟩)) := by
  have ha := output_matches_captured_format.1 fsW "a" OutputFileFormat.pdf ⟨"T", []⟩ "x"
    ⟨"a", "a.pdf", FileStatus.completed, some (Output.doc ⟨"T", []⟩)⟩
    (by decide) rfl
  have hb := output_matches_captured_format.2.1 sW3 "a" "a_converted.pdf" ⟨"T", []⟩
    (by decide)
  exact ⟨ha, hb⟩

/-! ## C9: download file names -/

/-- The character list of the pattern `'.pdf'` passed to `replace`. -/
def pdfExt : List Char := ['.', 'p', 'd', 'f']

/-- A match of `'.pdf'` starting inside `c :: rest ++ '.pdf'` cannot
straddle the boundary: if the pattern is a prefix of the padded list it is
already a prefix of `c :: rest` (the pattern's proper prefixes all end in
a character different from the one required). -/
theorem pdfExt_isPrefixOf_shift (c : Char) (rest : List Char)
    (hp : pdfExt.isPrefixOf (c :: (rest ++ pdfExt)) = true) :
    pdfExt.isPrefixOf (c :: rest) = true := by
  rcases rest with _ | ⟨a, _ | ⟨b, _ | ⟨e, t⟩⟩⟩
  · simp [pdfExt, List.isPrefixOf,
      show ('p' == '.') = false from rfl] at hp
  · simp [pdfExt, List.isPrefixOf,
      show ('d' == '.') = false from rfl] at hp
  · simp [pdfExt, List.isPrefixOf,
      show ('f' == '.') = false from rfl] at hp
  · simp only [pdfExt, List.isPrefixOf, List.cons_append] at hp ⊢
    simpa using hp

/-- Replacing the first occurrence of `'.pdf'` in `l ++ '.pdf'` strips the
suffix exactly when `'.pdf'` does not occur in `l`. -/
theorem replaceFirst_strip (l : List Char) (h : ¬ pdfExt <:+: l) :
    replaceFirst pdfExt [] (l ++ pdfExt) = l := by
  induction l with
  | nil => decide
  | cons c rest ih =>
    have hrest : ¬ pdfExt <:+: rest := fun hin => h (List.infix_cons hin)
    rw [List.cons_append]
    cases hp : pdfExt.isPrefixOf (c :: (rest ++ pdfExt)) with
    | false =>
      simp only [replaceFirst]
      have hneg : ¬(pdfExt.isPrefixOf (c :: (rest ++ pdfExt)) = true) := by
        simp only [hp]
        exact Bool.false_ne_true
      rw [if_neg hneg, ih hrest]
    | true =>
      exfalso
      have h2 := pdfExt_isPrefixOf_shift c rest hp
      have h3 : pdfExt <+: c :: rest := Iff.mp List.isPrefixOf_iff_prefix h2
      exact h h3.isInfix

/-- Claim C9 is false as stated: `filename.replace('.pdf', '')` removes the
FIRST occurrence of `'.pdf'`, not the suffix.  For the uploadable file name
`'a.pdfx.pdf'` the saved name is `'ax.pdf_converted.pdf'`, not the
suffix-stripped `'a.pdfx_converted.pdf'`. -/
theorem download_name_cx :
    pdfSaveName "a.pdfx.pdf" = "ax.pdf_converted.pdf" ∧
    pdfSaveName "a.pdfx.pdf" ≠ "a.pdfx" ++ "_converted.pdf" := by
  constructor <;> decide

/-- Amended C9: for file names in which `'.pdf'` occurs only as the final
suffix, the PDF download is saved as `<name>_converted.pdf` and the LaTeX
download as `<name>.tex` with `<name>` the name minus the suffix; in
general the first occurrence of `'.pdf'` is the one removed. -/
theorem download_names (stem : String) (h : ¬ pdfExt <:+: stem.data) :
    pdfSaveName (stem ++ ".pdf") = stem ++ "_converted.pdf" ∧
    texSaveName (stem ++ ".pdf") = stem ++ ".tex" := by
  obtain ⟨l⟩ := stem
  have h' : ¬ pdfExt <:+: l := h
  have hd : (String.mk l ++ ".pdf").data = l ++ pdfExt := by
    rw [String.data_append]
    exact rfl
  have hpat : ".pdf".data = pdfExt := rfl
  constructor
  · unfold pdfSaveName
    rw [hd, hpat, replaceFirst_strip l h']
  · unfold texSaveName
    rw [hd, hpat, replaceFirst_strip l h']

/-- Witness for the amended C9 at the stem `'notes'`. -/
theorem download_names_w :
    pdfSaveName ("notes" ++ ".pdf") = "notes" ++ "_converted.pdf" ∧
    texSaveName ("notes" ++ ".pdf") = "notes" ++ ".tex" :=
  download_names "notes" (by decide)

end Handy
